import Mathlib

set_option maxHeartbeats 1000000

/-!
Verification development for the ws-electrumx-client repository.

The library is a WebSocket JSON-RPC 2.0 client for Electrum servers
(`src/lib/electrum-ws.ts`), with a pure error classifier
(`src/lib/rpc-error.ts`) and an event hub (`src/lib/observable.ts`).

This file gives a shallow embedding of the client's data model and
operations.  JavaScript strings are modelled as `List Char` (`JStr`);
JSON values as an inductive `Json` type (numbers restricted to integers,
which covers all protocol ids and every value appearing in the
statements below); session state as an explicit record threaded through
the handlers; timers as explicit identifiers tracked in a set of active
timers; promise resolution, rejection and event publication as an
explicit effect list returned by each handler.
-/

/-- JavaScript strings, modelled as lists of characters. -/
abbrev JStr := List Char

/-- JSON values as produced by `JSON.parse`.  Numbers are restricted to
integers: every id and every numeric value in the protocol traffic
relevant to the claims is an integer. -/
inductive Json where
  | null : Json
  | bool : Bool → Json
  | num : Int → Json
  | str : JStr → Json
  | arr : List Json → Json
  | obj : List (JStr × Json) → Json
deriving Repr

/-- JSON whitespace characters. -/
def isJsonWs (c : Char) : Bool :=
  c == ' ' || c == '\t' || c == '\n' || c == '\r'

/-- Drop leading JSON whitespace. -/
def skipWs : JStr → JStr
  | [] => []
  | c :: cs => if isJsonWs c then skipWs cs else c :: cs

/-- Decimal digit value of a character, if it is a digit. -/
def digitVal (c : Char) : Option Nat :=
  if 48 ≤ c.toNat && c.toNat ≤ 57 then some (c.toNat - 48) else none

/-- Take the maximal leading run of decimal digits. -/
def takeDigits : JStr → List Nat × JStr
  | [] => ([], [])
  | c :: cs =>
    match digitVal c with
    | some d => let r := takeDigits cs; (d :: r.1, r.2)
    | none => ([], c :: cs)

/-- Value of a digit list, most significant first. -/
def natOfDigits (ds : List Nat) : Nat :=
  ds.foldl (fun a d => a * 10 + d) 0

/-- Parse a JSON integer literal (`-?(0|[1-9][0-9]*)`).  Leading zeros are
rejected as in the JSON grammar. -/
def parseNumber (cs : JStr) : Option (Int × JStr) :=
  match cs with
  | '-' :: rest =>
    match takeDigits rest with
    | ([], _) => none
    | (ds, r) =>
      if ds.length > 1 && ds.headD 0 == 0 then none
      else some (-(natOfDigits ds : Int), r)
  | _ =>
    match takeDigits cs with
    | ([], _) => none
    | (ds, r) =>
      if ds.length > 1 && ds.headD 0 == 0 then none
      else some ((natOfDigits ds : Int), r)

/-- Hexadecimal digit value. -/
def hexVal (c : Char) : Option Nat :=
  if 48 ≤ c.toNat && c.toNat ≤ 57 then some (c.toNat - 48)
  else if 97 ≤ c.toNat && c.toNat ≤ 102 then some (c.toNat - 87)
  else if 65 ≤ c.toNat && c.toNat ≤ 70 then some (c.toNat - 55)
  else none

/-- Parse the body of a JSON string after the opening quote, returning the
decoded characters and the remainder after the closing quote.  Standard
escapes are handled; unescaped control characters are rejected. -/
def parseStrBody : Nat → JStr → Option (JStr × JStr)
  | 0, _ => none
  | _, [] => none
  | f + 1, c :: cs =>
    if c == '"' then some ([], cs)
    else if c == '\\' then
      match cs with
      | [] => none
      | e :: cs' =>
        let unesc : Option (Char × JStr) :=
          if e == '"' then some ('"', cs')
          else if e == '\\' then some ('\\', cs')
          else if e == '/' then some ('/', cs')
          else if e == 'n' then some ('\n', cs')
          else if e == 't' then some ('\t', cs')
          else if e == 'r' then some ('\r', cs')
          else if e == 'b' then some (Char.ofNat 8, cs')
          else if e == 'f' then some (Char.ofNat 12, cs')
          else if e == 'u' then
            match cs' with
            | h1 :: h2 :: h3 :: h4 :: cs'' =>
              match hexVal h1, hexVal h2, hexVal h3, hexVal h4 with
              | some a, some b, some c2, some d =>
                some (Char.ofNat (((a * 16 + b) * 16 + c2) * 16 + d), cs'')
              | _, _, _, _ => none
            | _ => none
          else none
        match unesc with
        | none => none
        | some (ch, rest) =>
          match parseStrBody f rest with
          | none => none
          | some (s, r) => some (ch :: s, r)
    else if c.toNat < 32 then none
    else
      match parseStrBody f cs with
      | none => none
      | some (s, r) => some (c :: s, r)

mutual

/-- Parse one JSON value (fuelled recursive descent). -/
def parseVal : Nat → JStr → Option (Json × JStr)
  | 0, _ => none
  | f + 1, cs =>
    match skipWs cs with
    | [] => none
    | c :: rest =>
      if c == '{' then
        match skipWs rest with
        | '}' :: r => some (.obj [], r)
        | _ =>
          match parseFields f rest with
          | some (fs, r) => some (.obj fs, r)
          | none => none
      else if c == '[' then
        match skipWs rest with
        | ']' :: r => some (.arr [], r)
        | _ =>
          match parseElems f rest with
          | some (xs, r) => some (.arr xs, r)
          | none => none
      else if c == '"' then
        match parseStrBody (rest.length + 1) rest with
        | some (s, r) => some (.str s, r)
        | none => none
      else if c == 't' then
        match rest with
        | 'r' :: 'u' :: 'e' :: r => some (.bool true, r)
        | _ => none
      else if c == 'f' then
        match rest with
        | 'a' :: 'l' :: 's' :: 'e' :: r => some (.bool false, r)
        | _ => none
      else if c == 'n' then
        match rest with
        | 'u' :: 'l' :: 'l' :: r => some (.null, r)
        | _ => none
      else
        match parseNumber (c :: rest) with
        | some (n, r) => some (.num n, r)
        | none => none

/-- Parse the members of a JSON object after the opening brace. -/
def parseFields : Nat → JStr → Option (List (JStr × Json) × JStr)
  | 0, _ => none
  | f + 1, cs =>
    match skipWs cs with
    | '"' :: rest =>
      match parseStrBody (rest.length + 1) rest with
      | none => none
      | some (k, r1) =>
        match skipWs r1 with
        | ':' :: r2 =>
          match parseVal f r2 with
          | none => none
          | some (v, r3) =>
            match skipWs r3 with
            | ',' :: r4 => (parseFields f r4).map (fun p => ((k, v) :: p.1, p.2))
            | '}' :: r4 => some ([(k, v)], r4)
            | _ => none
        | _ => none
    | _ => none

/-- Parse the elements of a JSON array after the opening bracket. -/
def parseElems : Nat → JStr → Option (List Json × JStr)
  | 0, _ => none
  | f + 1, cs =>
    match parseVal f cs with
    | none => none
    | some (v, r) =>
      match skipWs r with
      | ',' :: r2 => (parseElems f r2).map (fun p => (v :: p.1, p.2))
      | ']' :: r2 => some ([v], r2)
      | _ => none

end

/-- `JSON.parse`: the whole input must be one JSON value, up to
surrounding whitespace. -/
def parseJson (s : JStr) : Option Json :=
  match parseVal (s.length + 1) s with
  | some (v, rest) => if (skipWs rest).isEmpty then some v else none
  | none => none

/-- Property access on a parsed JSON object: with duplicate keys,
`JSON.parse` keeps the last occurrence. -/
def jGet (fields : List (JStr × Json)) (k : JStr) : Option Json :=
  match fields with
  | [] => none
  | (k', v) :: rest =>
    match jGet rest k with
    | some r => some r
    | none => if k' == k then some v else none

/-- `isRpcResponse` from `electrum-ws.ts`: an object with a string
`jsonrpc` member and a numeric `id` member. -/
def isRpcResponse (j : Json) : Bool :=
  match j with
  | .obj fs =>
    (match jGet fs ("jsonrpc".toList) with | some (.str _) => true | _ => false) &&
    (match jGet fs ("id".toList) with | some (.num _) => true | _ => false)
  | _ => false

/-- `isRpcRequest` from `electrum-ws.ts`: an object with a string
`jsonrpc` member and a string `method` member. -/
def isRpcRequest (j : Json) : Bool :=
  match j with
  | .obj fs =>
    (match jGet fs ("jsonrpc".toList) with | some (.str _) => true | _ => false) &&
    (match jGet fs ("method".toList) with | some (.str _) => true | _ => false)
  | _ => false

/-- A candidate line is recognized when it parses as JSON and satisfies
`isRpcResponse` or `isRpcRequest`; the parsed value is returned. -/
def parseRecognized (line : JStr) : Option Json :=
  match parseJson line with
  | some v => if isRpcResponse v || isRpcRequest v then some v else none
  | none => none

/-- Boolean prefix test on character lists. -/
def isPrefixOfB : JStr → JStr → Bool
  | [], _ => true
  | _ :: _, [] => false
  | a :: as, b :: bs => a == b && isPrefixOfB as bs

/-- Boolean substring test: JavaScript `s.includes(pat)`. -/
def includesB (s pat : JStr) : Bool :=
  match s with
  | [] => pat.isEmpty
  | _ :: rest => isPrefixOfB pat s || includesB rest pat

/-- `parseLine` from `electrum-ws.ts`, with the `incompleteMessage`
buffer made explicit.  A recognized candidate clears the buffer.  An
unrecognized candidate is re-joined once with a nonempty buffer it does
not contain; the re-joined string is re-parsed, and on failure it
becomes the new buffer.  (Inside the source's recursive retry call the
joined line always contains the buffer, so the recursion depth is at
most two; this definition is that bounded unfolding.) -/
def parseLine (buf line : JStr) : JStr × Option Json :=
  match parseRecognized line with
  | some m => ([], some m)
  | none =>
    if buf ≠ [] ∧ includesB line buf = false then
      match parseRecognized (buf ++ line) with
      | some m => ([], some m)
      | none => (buf ++ line, none)
    else (line, none)

/-- Feed a sequence of candidate lines through `parseLine`, threading
the fragment buffer and collecting the recognized messages. -/
def feedAll (buf : JStr) : List JStr → JStr × List Json
  | [] => (buf, [])
  | l :: ls =>
    let r := parseLine buf l
    let rest := feedAll r.1 ls
    (rest.1, (match r.2 with | some m => [m] | none => []) ++ rest.2)

/-- Split an inbound transport payload on `\r`, `\n` and space, as in
`onMessage`'s `raw.split(regExpNewLineOrBlank)`. -/
def splitBlank (cs : JStr) : List JStr :=
  match cs with
  | [] => [[]]
  | c :: rest =>
    if c == '\r' || c == '\n' || c == ' ' then [] :: splitBlank rest
    else
      match splitBlank rest with
      | g :: gs => (c :: g) :: gs
      | [] => [c :: rest]

/-- Candidate lines of one delivery: split, then drop empty segments. -/
def candidateLines (raw : JStr) : List JStr :=
  (splitBlank raw).filter (fun l => l ≠ [])

/-! ## Error classifier (`rpc-error.ts`) -/

/-- Characters matched by the regex class `\s` (ASCII part). -/
def isRegexWs (c : Char) : Bool :=
  c == ' ' || c == '\t' || c == '\n' || c == '\r' || c.toNat == 11 || c.toNat == 12

/-- Drop leading `\s` characters. -/
def skipRegexWs : JStr → JStr
  | [] => []
  | c :: cs => if isRegexWs c then skipRegexWs cs else c :: cs

/-- Attempt the pattern of the regex (the literal characters of a quoted
`code` key followed by a colon, then optional whitespace and an optional
sign with at least one digit) at the start of the input, yielding the
parsed integer. -/
def matchCodeHere (cs : JStr) : Option Int :=
  if isPrefixOfB ("\"code\":".toList) cs then
    let r1 := skipRegexWs (cs.drop 7)
    match r1 with
    | '-' :: r2 =>
      match takeDigits r2 with
      | ([], _) => none
      | (ds, _) => some (-(natOfDigits ds : Int))
    | _ =>
      match takeDigits r1 with
      | ([], _) => none
      | (ds, _) => some ((natOfDigits ds : Int))
  else none

/-- `findRPCErrorCode` from `rpc-error.ts`: the leftmost position where
the full pattern matches, with the captured integer parsed as by
`parseInt`. -/
def findRPCErrorCode (s : JStr) : Option Int :=
  match s with
  | [] => none
  | _ :: rest =>
    match matchCodeHere s with
    | some c => some c
    | none => findRPCErrorCode rest

/-- The `JSON_RPC_ERRORS` table from `rpc-error.ts`. -/
def jsonRpcErrors (c : Int) : Option JStr :=
  if c = -32700 then some ("Parse error".toList)
  else if c = -32600 then some ("Invalid request".toList)
  else if c = -32601 then some ("Method not found".toList)
  else if c = -32602 then some ("Invalid params".toList)
  else if c = -32603 then some ("Internal error".toList)
  else if c = -1 then some ("Miscellaneous error".toList)
  else if c = -3 then some ("Unexpected type was passed as parameter".toList)
  else if c = -5 then some ("Invalid address or key".toList)
  else if c = -7 then some ("Ran out of memory during operation".toList)
  else if c = -8 then some ("Invalid, missing or duplicate parameter".toList)
  else if c = -20 then some ("Database error".toList)
  else if c = -22 then some ("Error parsing JSON".toList)
  else if c = -25 then some ("An error occured while transaction or block submission".toList)
  else if c = -26 then some ("Transaction or block was rejected by network rules".toList)
  else if c = -27 then some ("Transaction already in chain".toList)
  else if c = -28 then some ("Client still warming up".toList)
  else if c = -32 then some ("RPC method is deprecated".toList)
  else none

/-- An `RPCError` instance.  The TypeScript class declares a `code`
field but its constructor never assigns it, so at runtime the produced
error carries the code only inside its `message` text; the model
therefore stores the formatted message and the raw input string. -/
structure RPCErrVal where
  message : JStr
  str : JStr
deriving Repr, DecidableEq

/-- Decimal rendering of an integer, as the template literal does. -/
def intToJStr (n : Int) : JStr :=
  (toString n).toList

/-- The `RPCError` constructor.  `none` models the constructor throwing:
it throws when `findRPCErrorCode` returns `false` (no match) and also —
because the check is the falsy test of the extracted number — when the
extracted code is `0`. -/
def rpcErrorCtor (s : JStr) : Option RPCErrVal :=
  match findRPCErrorCode s with
  | none => none
  | some c =>
    if c = 0 then none
    else
      let m := (jsonRpcErrors c).getD ("Unknown JSON RPC error".toList)
      some ⟨m ++ " (code: ".toList ++ intToJStr c ++ ")".toList, s⟩

/-! ## Session state (`electrum-ws.ts`) -/

/-- Transport readyState (`WebSocket.CONNECTING | OPEN | CLOSING | CLOSED`). -/
inductive WsState where
  | connecting : WsState
  | wsOpen : WsState
  | closing : WsState
  | closed : WsState
deriving Repr, DecidableEq

/-- One entry of the pending-request table (`Request` in the source):
the diagnostic method name and the identifier of its deadline timer.
The resolve/reject continuations are represented by the entry's id via
the effect list. -/
structure ReqEntry where
  method : JStr
  timer : Nat
deriving Repr, DecidableEq

/-- An error value a pending request can be rejected with. -/
inductive JsErr where
  | rpc (e : RPCErrVal)
  | generic (message : JStr)
deriving Repr, DecidableEq

/-- Observable effects of the handlers: the generic `message` event,
timer cancellation, promise resolution and rejection, and subscription
callback invocation (callbacks are identified by the registry value). -/
inductive Eff where
  | firedMessage (m : Json)
  | clearedTimeout (t : Nat)
  | resolved (id : Int) (v : Json)
  | rejected (id : Int) (e : JsErr)
  | callbackInvoked (cb : Nat) (params : List Json)
deriving Repr

/-- The mutable state of one `ElectrumWS` session. -/
structure SessState where
  reconnectOpt : Bool
  requests : List (Int × ReqEntry)
  subscriptions : List (JStr × Nat)
  connected : Bool
  settleTimerActive : Bool
  reconnectTimerActive : Bool
  wsState : WsState
  activeTimers : List Nat
  nextTimer : Nat
  incompleteMessage : JStr
deriving Repr, DecidableEq

/-- `Map.get` on the pending-request table. -/
def reqLookup (rs : List (Int × ReqEntry)) (id : Int) : Option ReqEntry :=
  match rs with
  | [] => none
  | (i, e) :: rest => if i == id then some e else reqLookup rest id

/-- `Map.delete` on the pending-request table. -/
def reqRemove (rs : List (Int × ReqEntry)) (id : Int) : List (Int × ReqEntry) :=
  rs.filter (fun p => p.1 != id)

/-- `Map.set` on the pending-request table: replace in place, else append
(insertion order is preserved, as for a JavaScript `Map`). -/
def reqSet (rs : List (Int × ReqEntry)) (id : Int) (e : ReqEntry) : List (Int × ReqEntry) :=
  match rs with
  | [] => [(id, e)]
  | (i, e') :: rest => if i == id then (i, e) :: rest else (i, e') :: reqSet rest id e

/-- `Map.get` on the subscription registry. -/
def subsLookup (ss : List (JStr × Nat)) (k : JStr) : Option Nat :=
  match ss with
  | [] => none
  | (k', cb) :: rest => if k' == k then some cb else subsLookup rest k

/-- `Map.set` on the subscription registry. -/
def subsSet (ss : List (JStr × Nat)) (k : JStr) (cb : Nat) : List (JStr × Nat) :=
  match ss with
  | [] => [(k, cb)]
  | (k', cb') :: rest => if k' == k then (k', cb) :: rest else (k', cb') :: subsSet rest k cb

/-- `Map.delete` on the subscription registry. -/
def subsDelete (ss : List (JStr × Nat)) (k : JStr) : List (JStr × Nat) :=
  ss.filter (fun p => p.1 != k)

/-- JavaScript truthiness of a JSON value. -/
def truthy : Json → Bool
  | .null => false
  | .bool b => b
  | .num n => n != 0
  | .str s => !s.isEmpty
  | .arr _ => true
  | .obj _ => true

/-- `typeof response.error === 'string' ? response.error :
response.error.message`: the string itself, the `message` property of an
object, and `undefined` (`none`) for every other value. -/
def errMsgVal : Json → Option Json
  | .str s => some (.str s)
  | .obj fs => jGet fs ("message".toList)
  | _ => none

mutual

/-- JavaScript `String(x)` on a JSON value. -/
def jsToStr : Json → JStr
  | .null => "null".toList
  | .bool b => if b then "true".toList else "false".toList
  | .num n => intToJStr n
  | .str s => s
  | .arr xs => jsToStrArr xs
  | .obj _ => "[object Object]".toList

/-- Array-to-string: elements joined with commas, `null` rendering empty. -/
def jsToStrArr : List Json → JStr
  | [] => []
  | [x] => jsToStrElem x
  | x :: xs => jsToStrElem x ++ ',' :: jsToStrArr xs

/-- One array element under `String`: `null` renders as the empty string. -/
def jsToStrElem : Json → JStr
  | .null => []
  | x => jsToStr x

end

/-- The error a matched response with a truthy `error` field is rejected
with: `new RPCError(errorMsg)` when the constructor succeeds, otherwise
(constructor throw caught) `new Error(errorMsg)`.  When `errorMsg` is
not a string the `RPCError` constructor throws while matching, and
`new Error` stringifies its argument (`undefined` gives an empty
message). -/
def classifyReject (e : Json) : JsErr :=
  match errMsgVal e with
  | some (.str s) =>
    match rpcErrorCtor s with
    | some r => JsErr.rpc r
    | none => JsErr.generic s
  | some v => JsErr.generic (jsToStr v)
  | none => JsErr.generic []

/-- The settlement of a matched response: `result` member present (even
`null`) resolves; otherwise a truthy `error` member rejects with the
classified error; otherwise the rejection is the generic `No result`
error. -/
def responseOutcome (fs : List (JStr × Json)) (id : Int) : Eff :=
  match jGet fs ("result".toList) with
  | some v => Eff.resolved id v
  | none =>
    match jGet fs ("error".toList) with
    | some e =>
      if truthy e then Eff.rejected id (classifyReject e)
      else Eff.rejected id (JsErr.generic ("No result".toList))
    | none => Eff.rejected id (JsErr.generic ("No result".toList))

/-- JavaScript `s.replace(pat, '')` with a string pattern: remove the
first occurrence of `pat`, if any. -/
def replaceFirst (pat : JStr) (s : JStr) : JStr :=
  match s with
  | [] => []
  | c :: rest =>
    if isPrefixOfB pat s then s.drop pat.length
    else c :: replaceFirst pat rest

/-- JavaScript `s.endsWith(pat)`. -/
def endsWithB (s pat : JStr) : Bool :=
  isPrefixOfB pat.reverse s.reverse

/-- `response.params || []`, restricted to array-or-absent `params`
(the protocol always carries arrays; on a truthy non-array the source
would throw while spreading). -/
def paramsListOf (fs : List (JStr × Json)) : List Json :=
  match jGet fs ("params".toList) with
  | some (.arr xs) => xs
  | _ => []

/-- The subscription key the push branch derives:
`method.replace('.subscribe', '')`, then the first push parameter
appended after a dash iff it is a string. -/
def pushKeyOf (method : JStr) (params : List Json) : JStr :=
  replaceFirst (".subscribe".toList) method ++
    (match params.head? with | some (.str s) => '-' :: s | _ => [])

/-- The push branch of `onMessage`: on a message whose `method` member is
a string ending in `subscribe`, derive the key and invoke the matching
registered callback with the push parameters, if a registration exists. -/
def pushEffects (subs : List (JStr × Nat)) (resp : Json) : List Eff :=
  match resp with
  | .obj fs =>
    match jGet fs ("method".toList) with
    | some (.str m) =>
      if endsWithB m ("subscribe".toList) then
        let ps := paramsListOf fs
        match subsLookup subs (pushKeyOf m ps) with
        | some cb => [Eff.callbackInvoked cb ps]
        | none => []
      else []
    | _ => []
  | _ => []

/-- The body of `onMessage` for one recognized message: fire the generic
`message` event; if the message carries a numeric `id` matching a
pending entry, cancel the entry's timer, remove it and settle it; then
run the push branch. -/
def handleParsed (st : SessState) (resp : Json) : SessState × List Eff :=
  match resp with
  | .obj fs =>
    match jGet fs ("id".toList) with
    | some (.num n) =>
      match reqLookup st.requests n with
      | some entry =>
        let st' := { st with
          requests := reqRemove st.requests n,
          activeTimers := st.activeTimers.filter (fun t => t != entry.timer) }
        (st', Eff.firedMessage resp :: Eff.clearedTimeout entry.timer ::
              responseOutcome fs n :: pushEffects st'.subscriptions resp)
      | none => (st, Eff.firedMessage resp :: pushEffects st.subscriptions resp)
    | _ => (st, Eff.firedMessage resp :: pushEffects st.subscriptions resp)
  | _ => (st, [Eff.firedMessage resp])

/-- One candidate line: thread the fragment buffer through `parseLine`,
then dispatch the recognized message, if any. -/
def handleLine (st : SessState) (line : JStr) : SessState × List Eff :=
  let pr := parseLine st.incompleteMessage line
  let st1 := { st with incompleteMessage := pr.1 }
  match pr.2 with
  | none => (st1, [])
  | some m => handleParsed st1 m

/-- `onMessage` on one transport delivery: split into candidate lines and
process them in order. -/
def processDelivery (st : SessState) (raw : JStr) : SessState × List Eff :=
  (candidateLines raw).foldl
    (fun acc l =>
      let r := handleLine acc.1 l
      (r.1, acc.2 ++ r.2))
    (st, [])

/-- The deadline-timer handler installed by `createRequestPromise`: on
expiry, remove the entry and reject it with the timeout error. -/
def timeoutMsg (id : Int) (method : JStr) : JStr :=
  "ElectrumWS request timeout. request ID: ".toList ++ intToJStr id ++
    " (".toList ++ method ++ ")".toList

/-- Firing of a pending entry's deadline timer. -/
def timeoutFireModel (st : SessState) (id : Int) : SessState × List Eff :=
  match reqLookup st.requests id with
  | none => (st, [])
  | some e =>
    ({ st with
        requests := reqRemove st.requests id,
        activeTimers := st.activeTimers.filter (fun t => t != e.timer) },
     [Eff.rejected id (JsErr.generic (timeoutMsg id e.method))])

/-- `createRequestPromise`: start a fresh deadline timer and insert the
entry into the table (a `Map.set`, which silently replaces an existing
entry with the same id). -/
def createRequestPromise (st : SessState) (id : Int) (method : JStr) : SessState :=
  { st with
      requests := reqSet st.requests id ⟨method, st.nextTimer⟩,
      activeTimers := st.activeTimers ++ [st.nextTimer],
      nextTimer := st.nextTimer + 1 }

/-- The id-probing loop of `request`/`batchRequest`: draw candidates
until one is not a key of the current table. -/
def allocId (rs : List (Int × ReqEntry)) : List Int → Option Int
  | [] => none
  | c :: cs => if (reqLookup rs c).isSome then allocId rs cs else some c

/-- Create the pending entries of a batch, in payload order. -/
def batchCreate (st : SessState) : List (Int × JStr) → SessState
  | [] => st
  | (id, m) :: rest => batchCreate (createRequestPromise st id m) rest

/-- `batchRequest`: probe a single starting id against the table, assign
the contiguous block of sequential ids to the payloads, and create every
entry; only the first id of the block was checked against the table. -/
def batchRequestModel (st : SessState) (cands : List Int) (methods : List JStr) :
    Option (SessState × List Int) :=
  match allocId st.requests cands with
  | none => none
  | some id0 =>
    let ids := (List.range methods.length).map (fun i => id0 + (i : Int))
    some (batchCreate st (ids.zip methods), ids)

/-! ## Subscriptions and reconnect replay -/

/-- A value of the `(string | number)[]` parameter type of `subscribe`. -/
inductive SParam where
  | strP (s : JStr)
  | numP (n : Int)
deriving Repr, DecidableEq

/-- The registration key of `subscribe`/`unsubscribe`: the method, with
the first parameter appended after a dash iff it is a string. -/
def subscriptionKey (method : JStr) (params : List SParam) : JStr :=
  method ++ (match params.head? with | some (.strP s) => '-' :: s | _ => [])

/-- One outbound request frame (method and parameters). -/
structure Send where
  method : JStr
  params : List SParam
deriving Repr, DecidableEq

/-- JavaScript `key.split('-')`. -/
def splitDash : JStr → List JStr
  | [] => [[]]
  | c :: rest =>
    if c == '-' then [] :: splitDash rest
    else
      match splitDash rest with
      | g :: gs => (c :: g) :: gs
      | [] => [[c]]

/-- `onOpen`'s per-entry derivation: split the key on dashes, shift the
method off the front; an empty method aborts the entry (warning only). -/
def resubStepKey (k : JStr) : Option (JStr × List JStr) :=
  match splitDash k with
  | [] => none
  | m :: ps => if m = [] then none else some (m, ps)

/-- The resubscription loop of `onOpen`.  A JavaScript `Map` is iterated
in insertion order and entries appended during the iteration are
visited, so the loop walks the evolving registry by position.  Each
visited entry re-registers under the re-derived key (a `Map.set`, which
appends a new entry when the re-derived key differs from every existing
key) and, the session now being connected, sends one
`method.subscribe` request. -/
def resubLoop : Nat → List (JStr × Nat) → Nat → List Send → List (JStr × Nat) × List Send
  | 0, subs, _, sends => (subs, sends)
  | f + 1, subs, i, sends =>
    match subs.get? i with
    | none => (subs, sends)
    | some (k, cb) =>
      match resubStepKey k with
      | none => resubLoop f subs (i + 1) sends
      | some (m, ps) =>
        let subs' := subsSet subs (subscriptionKey m (ps.map SParam.strP)) cb
        resubLoop f subs' (i + 1)
          (sends ++ [⟨m ++ ".subscribe".toList, ps.map SParam.strP⟩])

/-- The whole resubscription pass.  Every appended entry's key rejoins to
itself, so the registry grows by at most one entry per original entry;
the fuel bounds every possible iteration. -/
def resubscribeAll (subs : List (JStr × Nat)) : List (JStr × Nat) × List Send :=
  resubLoop (2 * subs.length + 1) subs 0 []

/-- The `connectedTimeout` handler of `onOpen`: mark the session
connected and replay every registered subscription.  `ids` supplies the
ids the replayed requests' entries are created under (the source draws
them randomly). -/
def settleModel (st : SessState) (ids : List Int) : SessState × List Send :=
  let pr := resubscribeAll st.subscriptions
  let st1 := { st with
      connected := true,
      settleTimerActive := false,
      subscriptions := pr.1 }
  (batchCreate st1 (ids.zip (pr.2.map (fun s => s.method))), pr.2)

/-- `subscribe(method, callback, ...params)`: register under the derived
key; when not connected, defer; when connected, send `method.subscribe`
(creating a pending entry under the supplied fresh id). -/
def subscribeModel (st : SessState) (method : JStr) (cb : Nat) (params : List SParam)
    (id : Int) : SessState :=
  let st1 := { st with
      subscriptions := subsSet st.subscriptions (subscriptionKey method params) cb }
  if st1.connected then createRequestPromise st1 id (method ++ ".subscribe".toList)
  else st1

/-- `unsubscribe(method, ...params)`: drop the keyed registration; only
if one existed, send `method.unsubscribe`. -/
def unsubscribeModel (st : SessState) (method : JStr) (params : List SParam)
    (id : Int) : SessState :=
  let key := subscriptionKey method params
  match subsLookup st.subscriptions key with
  | some _ =>
    createRequestPromise { st with subscriptions := subsDelete st.subscriptions key }
      id (method ++ ".unsubscribe".toList)
  | none => st

/-! ## Close and the connection state machine -/

/-- The per-entry work of `close`'s rejection loop: clear the deadline
timer, then reject the pending promise with `new Error(reason)`. -/
def closeRejectEffs (rs : List (Int × ReqEntry)) (reason : JStr) : List Eff :=
  rs.foldr
    (fun p acc => Eff.clearedTimeout p.2.timer :: Eff.rejected p.1 (JsErr.generic reason) :: acc)
    []

/-- `close(reason)` up to the transport acknowledgment: disable
reconnection, reject every pending entry with `new Error(reason)` after
cancelling its deadline timer, cancel any scheduled reconnect, and, if
the transport is connecting or open, request transport closure and wait
for the close event (third component `true`). -/
def closeModel (st : SessState) (reason : JStr) : SessState × List Eff × Bool :=
  let effs := closeRejectEffs st.requests reason
  let reqTimers := st.requests.map (fun p => p.2.timer)
  let st1 := { st with
      reconnectOpt := false,
      requests := [],
      activeTimers := st.activeTimers.filter (fun t => !(reqTimers.contains t)),
      reconnectTimerActive := false }
  if st.wsState = WsState.connecting ∨ st.wsState = WsState.wsOpen then
    ({ st1 with wsState := WsState.closing }, effs, true)
  else (st1, effs, false)

/-- `onClose`: when the session never reached connected, clear the settle
timer; when reconnection is enabled and the session was connected,
schedule a reconnect; the connected flag is lowered last and the
transport is closed. -/
def onCloseModel (st : SessState) : SessState :=
  let st1 := if !st.connected then { st with settleTimerActive := false } else st
  let st2 := if st.reconnectOpt && st.connected then { st1 with reconnectTimerActive := true } else st1
  { st2 with connected := false, wsState := WsState.closed }

/-- `await close(reason)`: the close call followed, when it waits for the
transport, by the close event that resolves it. -/
def closeSettled (st : SessState) (reason : JStr) : SessState × List Eff :=
  let c := closeModel st reason
  if c.2.2 then (onCloseModel c.1, c.2.1) else (c.1, c.2.1)

/-- The constructor's session state: `connect()` has been called, the
transport is connecting, nothing is pending. -/
def initState (reconnect : Bool) : SessState :=
  { reconnectOpt := reconnect
    requests := []
    subscriptions := []
    connected := false
    settleTimerActive := false
    reconnectTimerActive := false
    wsState := WsState.connecting
    activeTimers := []
    nextTimer := 0
    incompleteMessage := [] }

/-- The event-loop transitions of one session.  Guards record when each
callback can run: the transport's open event fires on a connecting
socket; the settle timer fires only while the socket is open (`onClose`
clears it when the socket closes first); entries are created by
`request` after its probing loop (hence under an id unused at that
point) once the session is connected; message deliveries arrive on an
open socket; the transport close event fires on a socket that is not
already closed; the reconnect timer was scheduled by `onClose`. -/
inductive Step : SessState → SessState → Prop
  | openEvt (st : SessState) :
      st.wsState = WsState.connecting →
      Step st { st with wsState := WsState.wsOpen, settleTimerActive := true }
  | settle (st : SessState) (ids : List Int) :
      st.settleTimerActive = true →
      st.wsState = WsState.wsOpen →
      Step st (settleModel st ids).1
  | sendReq (st : SessState) (id : Int) (method : JStr) :
      st.connected = true →
      reqLookup st.requests id = none →
      Step st (createRequestPromise st id method)
  | batchReq (st : SessState) (cands : List Int) (methods : List JStr)
      (st' : SessState) (ids : List Int) :
      st.connected = true →
      batchRequestModel st cands methods = some (st', ids) →
      Step st st'
  | subCall (st : SessState) (method : JStr) (cb : Nat) (params : List SParam) (id : Int) :
      Step st (subscribeModel st method cb params id)
  | unsubCall (st : SessState) (method : JStr) (params : List SParam) (id : Int) :
      Step st (unsubscribeModel st method params id)
  | timeoutFire (st : SessState) (id : Int) :
      Step st (timeoutFireModel st id).1
  | msgEvt (st : SessState) (raw : JStr) :
      st.wsState = WsState.wsOpen →
      Step st (processDelivery st raw).1
  | closeEvt (st : SessState) :
      st.wsState ≠ WsState.closed →
      Step st (onCloseModel st)
  | reconnectFire (st : SessState) :
      st.reconnectTimerActive = true →
      st.wsState = WsState.closed →
      Step st { st with wsState := WsState.connecting, reconnectTimerActive := false }
  | closeCall (st : SessState) (reason : JStr) :
      Step st (closeSettled st reason).1

/-- States a session can be in when user code runs. -/
inductive Reachable : SessState → Prop
  | init (reconnect : Bool) : Reachable (initState reconnect)
  | step {s s' : SessState} : Reachable s → Step s s' → Reachable s'

/-! ## Derived predicates used by the statements -/

/-- The conditions under which the fragment buffer accumulates a split
message: every fragment is individually unrecognized, no fragment
contains the buffer accumulated so far as a substring, every
intermediate accumulation is still unrecognized, and the final
accumulation is recognized. -/
def accumOk (buf : JStr) : List JStr → Bool
  | [] => false
  | g :: gs =>
    (parseRecognized g).isNone &&
    (if buf = [] then
      match gs with
      | [] => false
      | _ :: _ => accumOk g gs
    else
      !(includesB g buf) &&
      (match gs with
       | [] => (parseRecognized (buf ++ g)).isSome
       | _ :: _ => (parseRecognized (buf ++ g)).isNone && accumOk (buf ++ g) gs))

/-- A subscription key that survives the replay derivation unchanged: a
nonempty method segment and at most one dash. -/
def goodKey (k : JStr) : Bool :=
  match splitDash k with
  | [] => false
  | m :: ps => !m.isEmpty && decide (ps.length ≤ 1)

/-- The one subscribe request the replay of a key produces when the key
survives the derivation. -/
def sendOfKey (k : JStr) : Send :=
  match splitDash k with
  | [] => ⟨".subscribe".toList, []⟩
  | m :: ps => ⟨m ++ ".subscribe".toList, ps.map SParam.strP⟩

/-! ## Options object sharing (`constructor` and `DEFAULT_OPTIONS`) -/

/-- An `ElectrumWSOptions` object. -/
structure OptObj where
  reconnect : Bool
  verbose : Bool
  token : Option JStr
deriving Repr, DecidableEq

/-- A `Partial<ElectrumWSOptions>` argument: each member present or not. -/
structure PartialOpts where
  reconnect : Option Bool
  verbose : Option Bool
  token : Option JStr
deriving Repr, DecidableEq

/-- `Object.assign(target, src)`: copy the present members of `src` onto
`target`, in place. -/
def objectAssign (target : OptObj) (src : PartialOpts) : OptObj :=
  { reconnect := src.reconnect.getD target.reconnect
    verbose := src.verbose.getD target.verbose
    token := match src.token with | some t => some t | none => target.token }

/-- A heap of options objects, making object identity explicit.  Address
`0` holds the static `ElectrumWS.DEFAULT_OPTIONS` object. -/
structure OptHeap where
  cells : List OptObj
deriving Repr, DecidableEq

/-- Read the object at an address. -/
def OptHeap.read (h : OptHeap) (a : Nat) : OptObj :=
  h.cells.getD a ⟨true, false, none⟩

/-- Overwrite the object at an address. -/
def OptHeap.write (h : OptHeap) (a : Nat) (v : OptObj) : OptHeap :=
  ⟨h.cells.set a v⟩

/-- The address of the static `DEFAULT_OPTIONS` object. -/
def defaultOptionsAddr : Nat := 0

/-- The module-load heap: `DEFAULT_OPTIONS` is
`reconnect: true, verbose: false`. -/
def initialHeap : OptHeap :=
  ⟨[⟨true, false, none⟩]⟩

/-- The constructor's
`this.options = Object.assign(ElectrumWS.DEFAULT_OPTIONS, options)`:
`Object.assign` mutates its target and returns it, so the new session's
`options` reference is the address of the static default object, whose
contents have just been overwritten with the supplied members. -/
def constructSession (h : OptHeap) (opts : PartialOpts) : OptHeap × Nat :=
  (h.write defaultOptionsAddr (objectAssign (h.read defaultOptionsAddr) opts),
   defaultOptionsAddr)

/-- Rejoin the segments of a dash-split key (`parts.join('-')` would
produce this; used to relate `splitDash` back to the original key). -/
def joinDash : List JStr → JStr
  | [] => []
  | [g] => g
  | g :: gs => g ++ '-' :: joinDash gs

/-! ## Concrete fixtures used by the statements and witnesses -/

/-- A session with one pending request under id `6` (deadline timer `0`). -/
def stOldSix : SessState :=
  { initState true with
      requests := [(6, ⟨"old".toList, 0⟩)], activeTimers := [0], nextTimer := 1 }

/-- A session with one pending request under id `1` (deadline timer `0`). -/
def stPendingOne : SessState :=
  { initState true with
      requests := [(1, ⟨"m".toList, 0⟩)], activeTimers := [0], nextTimer := 1 }

/-- A recognized response for id `1` whose `error` field holds the empty
string — present but falsy. -/
def respEmptyErr : Json :=
  Json.obj [("jsonrpc".toList, Json.str ("2.0".toList)),
            ("id".toList, Json.num 1),
            ("error".toList, Json.str [])]

/-- A session with one pending request under id `5` (deadline timer `0`). -/
def stPendingFive : SessState :=
  { initState true with
      requests := [(5, ⟨"m".toList, 0⟩)], activeTimers := [0], nextTimer := 1 }

/-- First fragment of a response split in three mid-delivery. -/
def frag1 : JStr := "\x7b\"jsonrpc\":\"2.0\",".toList

/-- Second fragment. -/
def frag2 : JStr := "\"id\":5,".toList

/-- Third fragment, carrying the message boundary. -/
def frag3 : JStr := "\"result\":42\x7d".toList

/-- The response the three fragments reassemble to. -/
def respFive : Json :=
  Json.obj [("jsonrpc".toList, Json.str ("2.0".toList)),
            ("id".toList, Json.num 5),
            ("result".toList, Json.num 42)]

/-- Registration key of `subscribe('blockchain.scripthash', cb, 'abc123')`. -/
def scripthashKey : JStr :=
  subscriptionKey ("blockchain.scripthash".toList) [SParam.strP ("abc123".toList)]

/-- Registration key of `subscribe('blockchain.headers', cb)`. -/
def headersKey : JStr :=
  subscriptionKey ("blockchain.headers".toList) []

/-- A session with the two registrations of the subscription-key
scenario (callbacks `0` and `1`). -/
def stTwoSubs : SessState :=
  { initState true with subscriptions := [(scripthashKey, 0), (headersKey, 1)] }

/-- The push message of the subscription-key scenario. -/
def pushScripthash : Json :=
  Json.obj [("jsonrpc".toList, Json.str ("2.0".toList)),
            ("method".toList, Json.str ("blockchain.scripthash.subscribe".toList)),
            ("params".toList, Json.arr [Json.str ("abc123".toList), Json.str ("st".toList)])]

/-- A push method that ends with `.subscribe` and also contains
`.subscribe` earlier. -/
def oddMethod : JStr := "a.subscribe.b.subscribe".toList

/-- A session registered under the suffix-stripped key of `oddMethod`. -/
def stOddSub : SessState :=
  { initState true with subscriptions := [("a.subscribe.b".toList, 7)] }

/-- A push message with method `oddMethod` and no parameters. -/
def pushOdd : Json :=
  Json.obj [("jsonrpc".toList, Json.str ("2.0".toList)),
            ("method".toList, Json.str oddMethod),
            ("params".toList, Json.arr [])]

/-- A session with one subscription whose key holds two dashes (the key
of `subscribe('m', cb, 'a-b')`). -/
def stDashedSub : SessState :=
  { initState true with subscriptions := [("m-a-b".toList, 0)] }

/-- The session after the transport open event. -/
def c7s1 : SessState :=
  { initState true with wsState := WsState.wsOpen, settleTimerActive := true }

/-- The session after the settle timer fired (no subscriptions). -/
def c7s2 : SessState := (settleModel c7s1 []).1

/-- The session with two pending requests (ids `1` and `2`). -/
def c7s4 : SessState :=
  createRequestPromise (createRequestPromise c7s2 1 ("m1".toList)) 2 ("m2".toList)

/-- The two invariants of reachable session states used below: the
connected flag is raised only while the transport is open, and user
code never observes the transient closing state. -/
def SessInv (st : SessState) : Prop :=
  (st.connected = true → st.wsState = WsState.wsOpen) ∧ st.wsState ≠ WsState.closing

/-! # Helper lemmas -/

theorem reqLookup_reqRemove (rs : List (Int × ReqEntry)) (id : Int) :
    reqLookup (reqRemove rs id) id = none := by
  induction rs with
  | nil => rfl
  | cons p rest ih =>
    by_cases h : p.1 = id
    · simpa [reqRemove, List.filter_cons, h] using ih
    · simpa [reqRemove, List.filter_cons, h, reqLookup] using ih

theorem batchCreate_preserves (l : List (Int × JStr)) (st : SessState) :
    (batchCreate st l).connected = st.connected ∧
    (batchCreate st l).wsState = st.wsState ∧
    (batchCreate st l).subscriptions = st.subscriptions ∧
    (batchCreate st l).settleTimerActive = st.settleTimerActive ∧
    (batchCreate st l).reconnectTimerActive = st.reconnectTimerActive ∧
    (batchCreate st l).reconnectOpt = st.reconnectOpt := by
  induction l generalizing st with
  | nil => exact ⟨rfl, rfl, rfl, rfl, rfl, rfl⟩
  | cons p rest ih => simpa [batchCreate, createRequestPromise] using ih _

/-! # Claim C8 — error classification -/

/-- Claim C8, counterexample.  The claim states that whenever the
quoted-code pattern is present in the raw error text, classification
succeeds and the produced error carries the extracted numeric code.  On
the input consisting of the quoted key `code`, a colon, a space and the
digit zero, the pattern is present and the extracted integer is `0`,
yet the `RPCError` constructor throws (classification fails), because
the source guards with the falsy test `if (!code)` rather than a
comparison against `false`. -/
theorem c8_code_zero_counterexample :
    findRPCErrorCode ("\"code\": 0".toList) = some 0 ∧
    rpcErrorCtor ("\"code\": 0".toList) = none := by
  exact ⟨rfl, rfl⟩

/-- Claim C8, amended.  For every raw error-payload string,
classification extracts a quoted-code integer pattern from the text; if
the pattern is absent — or if the extracted integer is `0`, which the
constructor's falsy guard conflates with absence — classification fails
(fallback to a generic error); otherwise known codes map to their
canonical message (for example `-27` to `Transaction already in chain`)
and unrecognized codes map to the generic unknown-RPC-error message,
and the produced error's message always embeds the numeric code
together with the resolved human-readable text (the declared `code`
field of the class is never assigned by the constructor, so the code
travels in the message). -/
theorem c8_classifier_amended :
    (∀ s : JStr, findRPCErrorCode s = none → rpcErrorCtor s = none) ∧
    (∀ (s : JStr) (c : Int), findRPCErrorCode s = some c → c ≠ 0 →
      rpcErrorCtor s =
        some ⟨(jsonRpcErrors c).getD ("Unknown JSON RPC error".toList) ++
                " (code: ".toList ++ intToJStr c ++ ")".toList, s⟩) ∧
    jsonRpcErrors (-27) = some ("Transaction already in chain".toList) := by
  refine ⟨?_, ?_, rfl⟩
  · intro s h
    simp [rpcErrorCtor, h]
  · intro s c h hc
    simp [rpcErrorCtor, h, hc]

/-- Claim C8, witness: the amended theorem applied to a string with no
code pattern and to a string carrying code `-27`. -/
theorem c8_classifier_amended_witness :
    rpcErrorCtor ("no numeric code here".toList) = none ∧
    rpcErrorCtor ("\"code\": -27".toList) =
      some ⟨(jsonRpcErrors (-27)).getD ("Unknown JSON RPC error".toList) ++
              " (code: ".toList ++ intToJStr (-27) ++ ")".toList,
            "\"code\": -27".toList⟩ :=
  ⟨c8_classifier_amended.1 ("no numeric code here".toList) rfl,
   c8_classifier_amended.2.1 ("\"code\": -27".toList) (-27) rfl (by decide)⟩

/-! # Claim C9 — session independence -/

/-- Claim C9.  The claim states that independently instantiated sessions
share no mutable structures, and in particular that constructing one
session with non-default options leaves the options of another session
and the defaults observed by later sessions unchanged.  The code
violates this: the constructor's `Object.assign(DEFAULT_OPTIONS,
options)` mutates the static default object and installs that very
object as every session's `options`.  Concretely: session one is
constructed with no options (its options object, which is the static
default, reads `reconnect = true`); constructing session two with
`reconnect: false` makes session one's options object read `reconnect =
false`, both sessions hold the same object, and a third session
constructed with no options also observes `reconnect = false`. -/
theorem c9_shared_default_options_bug :
    (let r1 := constructSession initialHeap ⟨none, none, none⟩
     let r2 := constructSession r1.1 ⟨some false, none, none⟩
     let r3 := constructSession r2.1 ⟨none, none, none⟩
     ((r1.1.read r1.2).reconnect = true) ∧
       r2.2 = r1.2 ∧
       ((r2.1.read r1.2).reconnect = false) ∧
       r3.2 = r1.2 ∧
       ((r3.1.read r3.2).reconnect = false)) := by
  exact ⟨rfl, rfl, rfl, rfl, rfl⟩

/-! # Claim C1 — id allocation and timer hygiene -/

/-- Claim C1.  The claim states that every id of the contiguous
sequential block allocated by `batchRequest` is unused by the current
table at the moment its entry is created, and that every removed table
entry has its deadline timer cancelled.  The code probes only the first
id of the block: with id `6` pending (deadline timer `0`) and the
random draw `5`, the batch of two requests takes the block `[5, 6]`;
creating the second entry is a `Map.set` on the occupied key `6`, which
silently replaces the pending entry — the replaced entry's promise can
no longer be settled by any response, and its deadline timer `0` is
never cancelled (it stays active and, on expiry, will delete the new
entry `6` instead). -/
theorem c1_batch_block_id_collision :
    (reqLookup stOldSix.requests 6).isSome = true ∧
    (∃ r, batchRequestModel stOldSix [5] ["m1".toList, "m2".toList] = some r ∧
      r.2 = [5, 6] ∧
      reqLookup r.1.requests 6 = some ⟨"m2".toList, 2⟩ ∧
      reqLookup r.1.requests 6 ≠ some ⟨"old".toList, 0⟩ ∧
      r.1.activeTimers = [0, 1, 2]) := by
  refine ⟨rfl, ⟨_, rfl, rfl, rfl, ?_, rfl⟩⟩
  decide

/-! # Claim C2 — frame reassembly -/

/-- Claim C2, counterexample.  The claim states that whenever two or
more consecutive incomplete fragments arrive before a recognizable
message boundary, the split message is never reassembled into a
recognized message and no pending request is resolved from it.  Against
this, a response for id `5` split into three fragments — the first two
both incomplete, individually and jointly — is reassembled when the
third arrives, and processing the three deliveries resolves the pending
request `5` with `42`: the retry path stores the failed join back into
the buffer, so the buffer accumulates fragments instead of keeping only
the most recent one. -/
theorem c2_three_fragment_reassembly_counterexample :
    parseRecognized frag1 = none ∧
    parseRecognized frag2 = none ∧
    parseRecognized (frag1 ++ frag2) = none ∧
    feedAll [] [frag1, frag2, frag3] = ([], [respFive]) ∧
    (processDelivery (processDelivery (processDelivery stPendingFive frag1).1 frag2).1 frag3).2 =
      [Eff.firedMessage respFive, Eff.clearedTimeout 0, Eff.resolved 5 (Json.num 42)] ∧
    (processDelivery (processDelivery (processDelivery stPendingFive frag1).1 frag2).1 frag3).1.requests
      = [] := by
  refine ⟨rfl, rfl, rfl, rfl, rfl, rfl⟩

/-- Claim C2, amended.  A candidate line is only ever re-joined with the
single buffered fragment string, but that buffer accumulates: when the
re-joined string still fails to parse it becomes the new buffer, so a
message split into any number of consecutive incomplete fragments is
reassembled once its final fragment arrives — provided every fragment
is individually unrecognized, every intermediate accumulation is
unrecognized, and no fragment contains the current buffer as a
substring (`accumOk`).  Under those conditions, feeding the fragments
from the given buffer recognizes exactly the re-joined message and
leaves the buffer empty. -/
theorem feedAll_cons (buf g : JStr) (ls : List JStr) :
    feedAll buf (g :: ls) =
      ((feedAll (parseLine buf g).1 ls).1,
       (match (parseLine buf g).2 with | some m => [m] | none => []) ++
         (feedAll (parseLine buf g).1 ls).2) := rfl

theorem c2_fragment_accumulation_amended :
    ∀ (ls : List JStr) (buf : JStr) (v : Json),
      accumOk buf ls = true →
      parseRecognized (buf ++ ls.flatten) = some v →
      feedAll buf ls = ([], [v]) := by
  intro ls
  induction ls with
  | nil =>
    intro buf v h _
    simp [accumOk] at h
  | cons g gs ih =>
    intro buf v h hv
    simp only [accumOk, Bool.and_eq_true] at h
    obtain ⟨hg, hrest⟩ := h
    have hg' : parseRecognized g = none := Option.isNone_iff_eq_none.mp hg
    by_cases hbuf : buf = []
    · subst hbuf
      rw [if_pos rfl] at hrest
      cases gs with
      | nil => simp at hrest
      | cons g2 gs' =>
        have hv' : parseRecognized (g ++ (g2 :: gs').flatten) = some v := by
          simpa using hv
        have hfeed := ih g v hrest hv'
        have hpl : parseLine [] g = (g, none) := by
          simp [parseLine, hg']
        rw [feedAll_cons, hpl]
        simp [hfeed]
    · rw [if_neg hbuf, Bool.and_eq_true] at hrest
      obtain ⟨hincB, hmatch⟩ := hrest
      have hinc : includesB g buf = false := by
        cases hI : includesB g buf
        · rfl
        · rw [hI] at hincB; simp at hincB
      cases gs with
      | nil =>
        have hv' : parseRecognized (buf ++ g) = some v := by
          simpa using hv
        have hpl : parseLine buf g = ([], some v) := by
          simp [parseLine, hg', hbuf, hinc, hv']
        rw [feedAll_cons, hpl]
        simp [feedAll]
      | cons g2 gs' =>
        rw [Bool.and_eq_true] at hmatch
        obtain ⟨hj, hacc⟩ := hmatch
        have hj' : parseRecognized (buf ++ g) = none := Option.isNone_iff_eq_none.mp hj
        have hv' : parseRecognized ((buf ++ g) ++ (g2 :: gs').flatten) = some v := by
          simpa [List.append_assoc] using hv
        have hfeed := ih (buf ++ g) v hacc hv'
        have hpl : parseLine buf g = (buf ++ g, none) := by
          simp [parseLine, hg', hbuf, hinc, hj']
        rw [feedAll_cons, hpl]
        simp [hfeed]

/-- Claim C2, witness: the amended theorem applied to the concrete
three-fragment split of the response for id `5`. -/
theorem c2_fragment_accumulation_amended_witness :
    accumOk [] [frag1, frag2, frag3] = true ∧
    parseRecognized ([] ++ ([frag1, frag2, frag3] : List JStr).flatten) = some respFive ∧
    feedAll [] [frag1, frag2, frag3] = ([], [respFive]) :=
  ⟨rfl, rfl, c2_fragment_accumulation_amended [frag1, frag2, frag3] [] respFive rfl rfl⟩

/-! # Claim C3 — response settlement -/

/-- Claim C3, counterexample.  The claim states that a matched response
with an `error` field present rejects with the classified RPC error or,
when classification fails, with a generic error carrying the raw error
message.  Against this, a response for id `1` whose `error` field is
present but holds the empty string (a falsy value) is rejected with the
generic `No result` error instead — the source tests
`else if (response.error)` for truthiness, not for presence — and the
`No result` message differs from the raw error message (the empty
string). -/
theorem c3_falsy_error_counterexample :
    jGet [("jsonrpc".toList, Json.str ("2.0".toList)), ("id".toList, Json.num 1),
          ("error".toList, Json.str [])] ("error".toList) = some (Json.str []) ∧
    (handleParsed stPendingOne respEmptyErr).2 =
      [Eff.firedMessage respEmptyErr, Eff.clearedTimeout 0,
       Eff.rejected 1 (JsErr.generic ("No result".toList))] ∧
    JsErr.generic ("No result".toList) ≠ JsErr.generic [] := by
  refine ⟨rfl, rfl, by decide⟩

/-- Claim C3, amended.  For every recognized inbound response whose id
matches a pending table entry, the session cancels the entry's timeout,
removes the entry, and resolves it with the `result` field if a
`result` field is present; otherwise, if a truthy `error` field is
present, it rejects with the classified RPC error or, when
classification fails, with a generic error carrying the raw error
message; if neither a `result` field nor a truthy `error` field is
present (including when `error` holds a falsy value such as `null` or
the empty string), it rejects with the generic `No result` error. -/
theorem c3_response_settlement_amended :
    ∀ (st : SessState) (fs : List (JStr × Json)) (n : Int) (e : ReqEntry),
      jGet fs ("id".toList) = some (.num n) →
      reqLookup st.requests n = some e →
      handleParsed st (.obj fs) =
        ({ st with requests := reqRemove st.requests n,
                   activeTimers := st.activeTimers.filter (fun t => t != e.timer) },
         Eff.firedMessage (.obj fs) :: Eff.clearedTimeout e.timer ::
           responseOutcome fs n :: pushEffects st.subscriptions (.obj fs)) ∧
      reqLookup (reqRemove st.requests n) n = none ∧
      (∀ v, jGet fs ("result".toList) = some v → responseOutcome fs n = Eff.resolved n v) ∧
      (∀ err, jGet fs ("result".toList) = none → jGet fs ("error".toList) = some err →
        truthy err = true → responseOutcome fs n = Eff.rejected n (classifyReject err)) ∧
      (jGet fs ("result".toList) = none →
        (jGet fs ("error".toList) = none ∨
          (∃ err, jGet fs ("error".toList) = some err ∧ truthy err = false)) →
        responseOutcome fs n = Eff.rejected n (JsErr.generic ("No result".toList))) := by
  intro st fs n e hid hreq
  refine ⟨?_, reqLookup_reqRemove _ _, ?_, ?_, ?_⟩
  · simp only [handleParsed, hid, hreq]
  · intro v hv
    simp only [responseOutcome, hv]
  · intro err hr he ht
    simp only [responseOutcome, hr, he, ht, if_true]
  · intro hr herr
    rcases herr with h | ⟨err, he, ht⟩
    · simp only [responseOutcome, hr, h]
    · simp only [responseOutcome, hr, he, ht]
      simp

/-- Claim C3, witness: the amended theorem applied to the response for
id `5` carrying `result` `42`, against the session pending on id `5`. -/
theorem c3_response_settlement_amended_witness :
    handleParsed stPendingFive respFive =
      ({ stPendingFive with requests := [], activeTimers := [] },
       [Eff.firedMessage respFive, Eff.clearedTimeout 0, Eff.resolved 5 (Json.num 42)]) ∧
    reqLookup (reqRemove stPendingFive.requests 5) 5 = none := by
  have h := c3_response_settlement_amended stPendingFive
      [("jsonrpc".toList, Json.str ("2.0".toList)), ("id".toList, Json.num 5),
       ("result".toList, Json.num 42)] 5 ⟨"m".toList, 0⟩ rfl rfl
  refine ⟨?_, h.2.1⟩
  have h1 := h.1
  rw [h.2.2.1 (Json.num 42) rfl] at h1
  exact h1

/-! # Claim C4 — push routing -/

theorem isPrefixOfB_trans (p q s : JStr) :
    isPrefixOfB p q = true → isPrefixOfB q s = true → isPrefixOfB p s = true := by
  induction p generalizing q s with
  | nil => intro _ _; rfl
  | cons a as ih =>
    intro h1 h2
    cases q with
    | nil => simp [isPrefixOfB] at h1
    | cons b bs =>
      cases s with
      | nil => simp [isPrefixOfB] at h2
      | cons c cs =>
        simp only [isPrefixOfB, Bool.and_eq_true, beq_iff_eq] at h1 h2 ⊢
        exact ⟨h1.1.trans h2.1, ih bs cs h1.2 h2.2⟩

theorem endsWith_subscribe_of_dot (m : JStr) :
    endsWithB m (".subscribe".toList) = true → endsWithB m ("subscribe".toList) = true := by
  intro h
  exact isPrefixOfB_trans _ _ _ (by decide) h

/-- Claim C4, counterexample.  The claim states that the key of a push
whose method ends with `.subscribe` is derived by stripping the
`.subscribe` suffix.  The source instead removes the first occurrence:
for the method that reads `a`, `.subscribe`, `.b`, `.subscribe`
concatenated — which ends with `.subscribe` — the derived key is
`a.b.subscribe`, not the suffix-stripped `a.subscribe.b`; consequently a
callback registered under the suffix-stripped key is not invoked by the
push, contradicting the claimed routing. -/
theorem c4_replace_not_suffix_counterexample :
    endsWithB oddMethod (".subscribe".toList) = true ∧
    replaceFirst (".subscribe".toList) oddMethod = "a.b.subscribe".toList ∧
    ("a.b.subscribe".toList : JStr) ≠ "a.subscribe.b".toList ∧
    subsLookup stOddSub.subscriptions ("a.subscribe.b".toList) = some 7 ∧
    (handleParsed stOddSub pushOdd).2 = [Eff.firedMessage pushOdd] := by
  refine ⟨rfl, rfl, by decide, rfl, rfl⟩

/-- Claim C4, amended.  For every recognized push message whose method
ends with `.subscribe`, the session derives the subscription key from
the method with the first occurrence of `.subscribe` removed (which
equals suffix-stripping whenever `.subscribe` occurs only as the
suffix, as for every real Electrum method) and the push's first
parameter (included iff it is a string), and invokes only the matching
registered callback, if one exists, with the push parameters; in
particular the scripthash and headers registrations do not collide, and
the scripthash push routes only to the scripthash callback. -/
theorem c4_push_routing_amended :
    (∀ (subs : List (JStr × Nat)) (fs : List (JStr × Json)) (m : JStr) (ps : List Json),
      jGet fs ("method".toList) = some (.str m) →
      endsWithB m (".subscribe".toList) = true →
      jGet fs ("params".toList) = some (.arr ps) →
      pushEffects subs (.obj fs) =
        (match subsLookup subs (pushKeyOf m ps) with
         | some cb => [Eff.callbackInvoked cb ps]
         | none => [])) ∧
    (handleParsed stTwoSubs pushScripthash).2 =
      [Eff.firedMessage pushScripthash,
       Eff.callbackInvoked 0 [Json.str ("abc123".toList), Json.str ("st".toList)]] ∧
    scripthashKey ≠ headersKey := by
  refine ⟨?_, rfl, by decide⟩
  intro subs fs m ps hm hends hps
  have h2 : endsWithB m ("subscribe".toList) = true := endsWith_subscribe_of_dot m hends
  simp only [pushEffects, hm, h2, paramsListOf, hps, if_true]

/-- Claim C4, witness: the amended routing rule applied to the
scripthash push against the two-registration session. -/
theorem c4_push_routing_amended_witness :
    pushEffects stTwoSubs.subscriptions pushScripthash =
      [Eff.callbackInvoked 0 [Json.str ("abc123".toList), Json.str ("st".toList)]] := by
  have h := c4_push_routing_amended.1 stTwoSubs.subscriptions
      [("jsonrpc".toList, Json.str ("2.0".toList)),
       ("method".toList, Json.str ("blockchain.scripthash.subscribe".toList)),
       ("params".toList, Json.arr [Json.str ("abc123".toList), Json.str ("st".toList)])]
      ("blockchain.scripthash.subscribe".toList)
      [Json.str ("abc123".toList), Json.str ("st".toList)] rfl rfl rfl
  exact h

/-! # Claim C5 — request timeout and late responses -/

/-- Claim C5.  For every request that receives no matching response
within its deadline, the timer's handler removes the table entry and
rejects the request with the timeout-kind error (the timeout message
naming the id and method); afterwards the id no longer matches any
entry.  A response with that id arriving after the timeout settles no
request: with no matching table entry (and no push method), processing
it only publishes the message on the generic `message` channel and
changes nothing. -/
theorem c5_timeout_removes_and_late_response_dropped :
    (∀ (st : SessState) (id : Int) (e : ReqEntry),
      reqLookup st.requests id = some e →
      timeoutFireModel st id =
        ({ st with requests := reqRemove st.requests id,
                   activeTimers := st.activeTimers.filter (fun t => t != e.timer) },
         [Eff.rejected id (JsErr.generic (timeoutMsg id e.method))]) ∧
      reqLookup (timeoutFireModel st id).1.requests id = none) ∧
    (∀ (st : SessState) (fs : List (JStr × Json)) (n : Int),
      jGet fs ("id".toList) = some (.num n) →
      reqLookup st.requests n = none →
      jGet fs ("method".toList) = none →
      handleParsed st (.obj fs) = (st, [Eff.firedMessage (.obj fs)])) := by
  constructor
  · intro st id e h
    constructor
    · simp only [timeoutFireModel, h]
    · simp only [timeoutFireModel, h]
      exact reqLookup_reqRemove _ _
  · intro st fs n hid hnone hm
    simp only [handleParsed, hid, hnone, pushEffects, hm]

/-- Claim C5, witness: the timeout of the pending request `1`, followed
by the late response for id `1` finding no entry and being dropped
after the `message` publication. -/
theorem c5_timeout_witness :
    timeoutFireModel stPendingOne 1 =
      ({ stPendingOne with requests := [], activeTimers := [] },
       [Eff.rejected 1 (JsErr.generic (timeoutMsg 1 ("m".toList)))]) ∧
    handleParsed { stPendingOne with requests := [], activeTimers := [] }
        (Json.obj [("jsonrpc".toList, Json.str ("2.0".toList)),
                   ("id".toList, Json.num 1), ("result".toList, Json.num 7)]) =
      ({ stPendingOne with requests := [], activeTimers := [] },
       [Eff.firedMessage (Json.obj [("jsonrpc".toList, Json.str ("2.0".toList)),
                                    ("id".toList, Json.num 1),
                                    ("result".toList, Json.num 7)])]) := by
  constructor
  · exact (c5_timeout_removes_and_late_response_dropped.1 stPendingOne 1 ⟨"m".toList, 0⟩ rfl).1
  · exact c5_timeout_removes_and_late_response_dropped.2
      { stPendingOne with requests := [], activeTimers := [] }
      [("jsonrpc".toList, Json.str ("2.0".toList)),
       ("id".toList, Json.num 1), ("result".toList, Json.num 7)] 1 rfl rfl rfl

/-! # Claim C6 — resubscription on connect/reconnect -/

theorem splitDash_ne_nil (k : JStr) : splitDash k ≠ [] := by
  cases k with
  | nil => simp [splitDash]
  | cons c rest =>
    unfold splitDash
    split
    · simp
    · split <;> simp

theorem joinDash_splitDash (k : JStr) : joinDash (splitDash k) = k := by
  induction k with
  | nil => rfl
  | cons c rest ih =>
    obtain ⟨g, gs, hS⟩ := List.exists_cons_of_ne_nil (splitDash_ne_nil rest)
    by_cases h : c = '-'
    · subst h
      rw [show splitDash ('-' :: rest) = [] :: splitDash rest from by simp [splitDash]]
      rw [hS] at ih ⊢
      simpa [joinDash] using ih
    · rw [show splitDash (c :: rest) = (c :: g) :: gs from by simp [splitDash, h, hS]]
      rw [hS] at ih
      cases gs with
      | nil => simpa [joinDash] using ih
      | cons g2 gs2 =>
        simp only [joinDash] at ih ⊢
        rw [List.cons_append, ih]

theorem splitDash_dashFree (k : JStr) : ∀ p ∈ splitDash k, '-' ∉ p := by
  induction k with
  | nil =>
    intro p hp
    simp [splitDash] at hp
    subst hp
    simp
  | cons c rest ih =>
    intro p hp
    by_cases h : c = '-'
    · subst h
      rw [show splitDash ('-' :: rest) = [] :: splitDash rest from by simp [splitDash]] at hp
      rcases List.mem_cons.mp hp with rfl | hmem
      · simp
      · exact ih p hmem
    · obtain ⟨g, gs, hS⟩ := List.exists_cons_of_ne_nil (splitDash_ne_nil rest)
      rw [show splitDash (c :: rest) = (c :: g) :: gs from by simp [splitDash, h, hS]] at hp
      rcases List.mem_cons.mp hp with rfl | hmem
      · intro hc
        rcases List.mem_cons.mp hc with h1 | h2
        · exact h h1.symm
        · exact ih g (by rw [hS]; exact List.mem_cons_self g gs) h2
      · exact ih p (by rw [hS]; exact List.mem_cons_of_mem g hmem)

theorem subsSet_self (ss : List (JStr × Nat)) :
    ∀ (i : Nat) (k : JStr) (cb : Nat),
      ss.get? i = some (k, cb) → (ss.map Prod.fst).Nodup → subsSet ss k cb = ss := by
  induction ss with
  | nil => intro i k cb h _; simp at h
  | cons p rest ih =>
    intro i k cb h hnd
    rw [List.map_cons, List.nodup_cons] at hnd
    cases i with
    | zero =>
      rw [List.get?_cons_zero] at h
      have hp : p = (k, cb) := Option.some_injective _ h
      subst hp
      simp [subsSet]
    | succ j =>
      rw [List.get?_cons_succ] at h
      have hmem : (k, cb) ∈ rest := List.get?_mem h
      have hkmem : k ∈ rest.map Prod.fst := by
        simpa using List.mem_map_of_mem Prod.fst hmem
      have hk : ¬(p.1 = k) := fun he => hnd.1 (he ▸ hkmem)
      obtain ⟨p1, p2⟩ := p
      simp only [subsSet]
      rw [if_neg (by simpa using hk)]
      rw [ih j k cb h hnd.2]

theorem subscriptionKey_splitDash (k m : JStr) (ps : List JStr)
    (hS : splitDash k = m :: ps) (hlen : ps.length ≤ 1) :
    subscriptionKey m (ps.map SParam.strP) = k := by
  have hjoin := joinDash_splitDash k
  rw [hS] at hjoin
  cases ps with
  | nil => simpa [subscriptionKey, joinDash] using hjoin
  | cons p ps2 =>
    cases ps2 with
    | nil => simpa [subscriptionKey, joinDash] using hjoin
    | cons q qs => simp at hlen

theorem resubLoop_good (ss : List (JStr × Nat))
    (hnd : (ss.map Prod.fst).Nodup)
    (hgood : ∀ p ∈ ss, goodKey p.1 = true) :
    ∀ (f i : Nat) (sends : List Send), ss.length - i < f →
      resubLoop f ss i sends =
        (ss, sends ++ ((ss.drop i).map (fun p => sendOfKey p.1))) := by
  intro f
  induction f with
  | zero => intro i sends h; omega
  | succ f ih =>
    intro i sends hf
    cases hg : ss.get? i with
    | none =>
      have hlen : ss.length ≤ i := List.get?_eq_none.mp hg
      simp only [resubLoop, hg]
      simp [List.drop_eq_nil_of_le hlen]
    | some pk =>
      obtain ⟨k, cb⟩ := pk
      have hi : i < ss.length := by
        by_contra hcon
        rw [List.get?_eq_none.mpr (by omega)] at hg
        exact Option.noConfusion hg
      have hmem : (k, cb) ∈ ss := List.get?_mem hg
      have hgk := hgood _ hmem
      rw [goodKey] at hgk
      rcases hSplit : splitDash k with _ | ⟨m, ps⟩
      · exact absurd hSplit (splitDash_ne_nil k)
      · rw [hSplit, Bool.and_eq_true] at hgk
        have hm : ¬(m = []) := by
          intro he
          rw [he] at hgk
          simp at hgk
        have hlen1 : ps.length ≤ 1 := by
          have := hgk.2
          simpa using this
        have hstep : resubStepKey k = some (m, ps) := by
          simp [resubStepKey, hSplit, hm]
        have hkey : subscriptionKey m (ps.map SParam.strP) = k :=
          subscriptionKey_splitDash k m ps hSplit hlen1
        simp only [resubLoop, hg, hstep, hkey, subsSet_self ss i k cb hg hnd]
        have hfuel : ss.length - (i + 1) < f := by omega
        refine (ih (i + 1) _ hfuel).trans ?_
        have hdrop : ss.drop i = (k, cb) :: ss.drop (i + 1) := by
          rw [List.drop_eq_get_cons hi]
          congr
          have := List.get?_eq_get hi
          rw [this] at hg
          exact Option.some_injective _ hg
        rw [hdrop]
        simp [sendOfKey, hSplit]

/-- Claim C6, counterexample.  The claim states that for every
registered subscription exactly one `method.subscribe` request is sent
once the connection reaches the connected state.  Against this, a
session with the single registration produced by
`subscribe('m', cb, 'a-b')` (key `m-a-b`) sends two subscribe requests
on the connected transition: the replay splits the key on every dash,
re-registers under the truncated key `m-a` (a new registry entry, which
the map iteration then also visits), and so issues `m.subscribe` twice
— and neither request carries the original parameter. -/
theorem c6_dashed_key_double_send_counterexample :
    stDashedSub.subscriptions.length = 1 ∧
    (settleModel stDashedSub []).2 =
      [⟨"m.subscribe".toList, [SParam.strP ("a".toList), SParam.strP ("b".toList)]⟩,
       ⟨"m.subscribe".toList, [SParam.strP ("a".toList)]⟩] ∧
    ((settleModel stDashedSub []).2).length ≠ stDashedSub.subscriptions.length ∧
    (settleModel stDashedSub []).1.subscriptions =
      [("m-a-b".toList, 0), ("m-a".toList, 0)] := by
  refine ⟨rfl, rfl, by decide, rfl⟩

/-- Claim C6, amended.  For every subscription registered before the
connection is established, exactly one `method.subscribe` request is
sent once the connection reaches the connected state, and — since the
registry is left unchanged by the replay — the same happens again
exactly once per entry after every subsequent successful reconnect,
provided every registered key survives the replay derivation (nonempty
method segment and at most one dash, i.e. `goodKey`; a key with two or
more dashes instead triggers an additional send for a newly registered
truncated key, see the counterexample). -/
theorem c6_resubscribe_exactly_once_amended :
    ∀ (st : SessState) (ids : List Int),
      (st.subscriptions.map Prod.fst).Nodup →
      (∀ p ∈ st.subscriptions, goodKey p.1 = true) →
      (settleModel st ids).2 = st.subscriptions.map (fun p => sendOfKey p.1) ∧
      (settleModel st ids).1.subscriptions = st.subscriptions ∧
      (settleModel st ids).1.connected = true := by
  intro st ids hnd hgood
  have h := resubLoop_good st.subscriptions hnd hgood
      (2 * st.subscriptions.length + 1) 0 [] (by omega)
  have hall : resubscribeAll st.subscriptions =
      (st.subscriptions, st.subscriptions.map (fun p => sendOfKey p.1)) := by
    simpa [resubscribeAll] using h
  refine ⟨?_, ?_, ?_⟩
  · simp [settleModel, hall]
  · simp [settleModel, hall, (batchCreate_preserves _ _).2.2.1]
  · simp [settleModel, hall, (batchCreate_preserves _ _).1]

/-- Claim C6, witness: the amended theorem applied to the session with
the scripthash and headers registrations (both keys survive the
derivation), yielding exactly the two subscribe sends in registration
order. -/
theorem c6_resubscribe_exactly_once_amended_witness :
    (settleModel stTwoSubs []).2 = [sendOfKey scripthashKey, sendOfKey headersKey] ∧
    (settleModel stTwoSubs []).1.subscriptions = stTwoSubs.subscriptions ∧
    (settleModel stTwoSubs []).1.connected = true := by
  have h := c6_resubscribe_exactly_once_amended stTwoSubs [] (by decide) (by decide)
  exact ⟨h.1, h.2.1, h.2.2⟩

/-! # Claim C10 — replay derives parameters from the key alone -/

/-- Claim C10.  On every reconnect the replayed subscribe derives its
method and parameters solely from the subscription key, by splitting on
dashes (the method is the segment before the first dash, the parameters
are the remaining segments); the parameters originally passed to
`subscribe` are not stored.  Consequently, whenever the original first
parameter was a non-string, or a string containing a dash, the
parameter list the replay derives differs from the parameters
originally supplied. -/
theorem c10_replay_params_differ :
    ∀ (method : JStr) (params : List SParam) (p : SParam),
      params.head? = some p →
      ((∃ n, p = SParam.numP n) ∨ (∃ s, p = SParam.strP s ∧ '-' ∈ s)) →
      ∀ (m : JStr) (ps : List JStr),
        resubStepKey (subscriptionKey method params) = some (m, ps) →
        ps.map SParam.strP ≠ params := by
  intro method params p hhead hcond m ps hstep
  obtain ⟨t, rfl⟩ : ∃ t, params = p :: t := by
    cases params with
    | nil => simp at hhead
    | cons q t =>
      simp at hhead
      exact ⟨t, by rw [hhead]⟩
  have hsplit : splitDash (subscriptionKey method (p :: t)) = m :: ps ∧ ¬(m = []) := by
    rcases hS : splitDash (subscriptionKey method (p :: t)) with _ | ⟨m', ps'⟩
    · exact absurd hS (splitDash_ne_nil _)
    · simp only [resubStepKey, hS] at hstep
      by_cases hm : m' = []
      · rw [if_pos hm] at hstep
        exact Option.noConfusion hstep
      · rw [if_neg hm] at hstep
        simp only [Option.some.injEq, Prod.mk.injEq] at hstep
        exact ⟨by rw [hstep.1, hstep.2], hstep.1 ▸ hm⟩
  rcases hcond with ⟨n, rfl⟩ | ⟨s, rfl, hdash⟩
  · intro heq
    cases ps with
    | nil => simp at heq
    | cons q qs => simp at heq
  · intro heq
    cases ps with
    | nil => simp at heq
    | cons q qs =>
      have hq : q = s := by
        have := heq
        simp at this
        exact this.1
      have hqmem : q ∈ splitDash (subscriptionKey method (SParam.strP s :: t)) := by
        rw [hsplit.1]
        exact List.mem_cons_of_mem m (List.mem_cons_self q qs)
      have := splitDash_dashFree _ q hqmem
      rw [hq] at this
      exact this hdash

/-- Claim C10, witness: the subscription registered by
`subscribe('m', cb, 'a-b')` replays with the derived parameter list of
two dash-free segments, which differs from the original parameter. -/
theorem c10_replay_params_differ_witness :
    resubStepKey (subscriptionKey ("m".toList) [SParam.strP ("a-b".toList)]) =
      some ("m".toList, ["a".toList, "b".toList]) ∧
    (["a".toList, "b".toList] : List JStr).map SParam.strP ≠
      [SParam.strP ("a-b".toList)] :=
  ⟨rfl, c10_replay_params_differ ("m".toList) [SParam.strP ("a-b".toList)]
      (SParam.strP ("a-b".toList)) rfl (Or.inr ⟨"a-b".toList, rfl, by decide⟩)
      ("m".toList) ["a".toList, "b".toList] rfl⟩

/-! # Claim C7 — close -/

theorem handleParsed_preserves (st : SessState) (m : Json) :
    (handleParsed st m).1.connected = st.connected ∧
    (handleParsed st m).1.wsState = st.wsState := by
  unfold handleParsed
  constructor <;> (repeat' split) <;> rfl

theorem handleLine_preserves (st : SessState) (l : JStr) :
    (handleLine st l).1.connected = st.connected ∧
    (handleLine st l).1.wsState = st.wsState := by
  unfold handleLine
  dsimp only
  split
  · exact ⟨rfl, rfl⟩
  · exact handleParsed_preserves _ _

theorem foldProcess_preserves (ls : List JStr) :
    ∀ (p : SessState × List Eff),
      ((ls.foldl (fun acc l => let r := handleLine acc.1 l; (r.1, acc.2 ++ r.2)) p).1.connected
        = p.1.connected) ∧
      ((ls.foldl (fun acc l => let r := handleLine acc.1 l; (r.1, acc.2 ++ r.2)) p).1.wsState
        = p.1.wsState) := by
  induction ls with
  | nil => intro p; exact ⟨rfl, rfl⟩
  | cons l ls ih =>
    intro p
    rw [List.foldl_cons]
    exact ⟨(ih _).1.trans (handleLine_preserves p.1 l).1,
           (ih _).2.trans (handleLine_preserves p.1 l).2⟩

theorem processDelivery_preserves (st : SessState) (raw : JStr) :
    (processDelivery st raw).1.connected = st.connected ∧
    (processDelivery st raw).1.wsState = st.wsState := by
  unfold processDelivery
  exact foldProcess_preserves (candidateLines raw) (st, [])

theorem subscribeModel_preserves (st : SessState) (method : JStr) (cb : Nat)
    (params : List SParam) (id : Int) :
    (subscribeModel st method cb params id).connected = st.connected ∧
    (subscribeModel st method cb params id).wsState = st.wsState := by
  unfold subscribeModel
  dsimp only
  split <;> exact ⟨rfl, rfl⟩

theorem unsubscribeModel_preserves (st : SessState) (method : JStr)
    (params : List SParam) (id : Int) :
    (unsubscribeModel st method params id).connected = st.connected ∧
    (unsubscribeModel st method params id).wsState = st.wsState := by
  unfold unsubscribeModel
  dsimp only
  split <;> exact ⟨rfl, rfl⟩

theorem timeoutFireModel_preserves (st : SessState) (id : Int) :
    (timeoutFireModel st id).1.connected = st.connected ∧
    (timeoutFireModel st id).1.wsState = st.wsState := by
  unfold timeoutFireModel
  split <;> exact ⟨rfl, rfl⟩

theorem settleModel_connected (st : SessState) (ids : List Int) :
    (settleModel st ids).1.connected = true := by
  unfold settleModel
  exact (batchCreate_preserves _ _).1

theorem settleModel_wsState (st : SessState) (ids : List Int) :
    (settleModel st ids).1.wsState = st.wsState := by
  unfold settleModel
  exact (batchCreate_preserves _ _).2.1

theorem onCloseModel_fields (st : SessState) :
    (onCloseModel st).connected = false ∧
    (onCloseModel st).wsState = WsState.closed ∧
    (onCloseModel st).requests = st.requests ∧
    (onCloseModel st).activeTimers = st.activeTimers ∧
    (onCloseModel st).reconnectOpt = st.reconnectOpt := by
  unfold onCloseModel
  dsimp only
  refine ⟨?_, ?_, ?_, ?_, ?_⟩ <;> (repeat' split) <;> rfl

theorem onCloseModel_reconnectTimer_of_noReconnect (st : SessState)
    (h : st.reconnectOpt = false) :
    (onCloseModel st).reconnectTimerActive = st.reconnectTimerActive := by
  unfold onCloseModel
  dsimp only
  rw [h]
  repeat' split
  all_goals first | rfl | simp_all

theorem closeSettled_eq_pos (st : SessState) (reason : JStr)
    (h : st.wsState = WsState.connecting ∨ st.wsState = WsState.wsOpen) :
    closeSettled st reason =
      (onCloseModel
        { st with
            reconnectOpt := false
            requests := []
            activeTimers := st.activeTimers.filter
              (fun t => !((st.requests.map (fun p => p.2.timer)).contains t))
            reconnectTimerActive := false
            wsState := WsState.closing },
       closeRejectEffs st.requests reason) := by
  simp only [closeSettled, closeModel]
  rw [if_pos h]
  rfl

theorem closeSettled_eq_neg (st : SessState) (reason : JStr)
    (h : ¬(st.wsState = WsState.connecting ∨ st.wsState = WsState.wsOpen)) :
    closeSettled st reason =
      ({ st with
          reconnectOpt := false
          requests := []
          activeTimers := st.activeTimers.filter
            (fun t => !((st.requests.map (fun p => p.2.timer)).contains t))
          reconnectTimerActive := false },
       closeRejectEffs st.requests reason) := by
  simp only [closeSettled, closeModel]
  rw [if_neg h]
  rfl

theorem step_preserves_inv {s s' : SessState} (h : Step s s') (hinv : SessInv s) :
    SessInv s' := by
  cases h with
  | openEvt hws => exact ⟨fun _ => rfl, fun hcc => nomatch hcc⟩
  | settle ids hst hws =>
    refine ⟨fun _ => ?_, ?_⟩
    · rw [settleModel_wsState]; exact hws
    · rw [settleModel_wsState, hws]; exact fun hcc => nomatch hcc
  | sendReq id method hc hfree => exact hinv
  | batchReq cands methods stp ids hc hb =>
    unfold batchRequestModel at hb
    cases ha : allocId s.requests cands with
    | none => rw [ha] at hb; exact Option.noConfusion hb
    | some id0 =>
      rw [ha] at hb
      simp only [Option.some.injEq, Prod.mk.injEq] at hb
      obtain ⟨hst, _⟩ := hb
      subst hst
      have hcp := batchCreate_preserves
        (((List.range methods.length).map (fun i => id0 + (i : Int))).zip methods) s
      refine ⟨fun hcc => ?_, ?_⟩
      · rw [hcp.2.1]; exact hinv.1 (hcp.1 ▸ hcc)
      · rw [hcp.2.1]; exact hinv.2
  | subCall method cb params id =>
    have hp := subscribeModel_preserves s method cb params id
    refine ⟨fun hcc => ?_, ?_⟩
    · rw [hp.2]; exact hinv.1 (hp.1 ▸ hcc)
    · rw [hp.2]; exact hinv.2
  | unsubCall method params id =>
    have hp := unsubscribeModel_preserves s method params id
    refine ⟨fun hcc => ?_, ?_⟩
    · rw [hp.2]; exact hinv.1 (hp.1 ▸ hcc)
    · rw [hp.2]; exact hinv.2
  | timeoutFire id =>
    have hp := timeoutFireModel_preserves s id
    refine ⟨fun hcc => ?_, ?_⟩
    · rw [hp.2]; exact hinv.1 (hp.1 ▸ hcc)
    · rw [hp.2]; exact hinv.2
  | msgEvt raw hws =>
    have hp := processDelivery_preserves s raw
    refine ⟨fun hcc => ?_, ?_⟩
    · rw [hp.2]; exact hinv.1 (hp.1 ▸ hcc)
    · rw [hp.2]; exact hinv.2
  | closeEvt hne =>
    refine ⟨fun hcc => ?_, ?_⟩
    · exact absurd ((onCloseModel_fields s).1 ▸ hcc) (fun hx => nomatch hx)
    · rw [(onCloseModel_fields s).2.1]; exact fun hx => nomatch hx
  | reconnectFire ht hws =>
    refine ⟨fun hcc => ?_, ?_⟩
    · have h2 := hinv.1 hcc
      rw [hws] at h2
      exact WsState.noConfusion h2
    · exact fun hx => nomatch hx
  | closeCall reason =>
    by_cases hcond : s.wsState = WsState.connecting ∨ s.wsState = WsState.wsOpen
    · rw [closeSettled_eq_pos s reason hcond]
      refine ⟨fun hcc => ?_, ?_⟩
      · exact absurd ((onCloseModel_fields _).1 ▸ hcc) (fun hx => nomatch hx)
      · rw [(onCloseModel_fields _).2.1]; exact fun hx => nomatch hx
    · rw [closeSettled_eq_neg s reason hcond]
      exact hinv

theorem reachable_inv {st : SessState} (h : Reachable st) : SessInv st := by
  induction h with
  | init r => exact ⟨fun hcc => (nomatch hcc), fun hx => nomatch hx⟩
  | step _ hs ih => exact step_preserves_inv hs ih

theorem closeRejectEffs_mem (rs : List (Int × ReqEntry)) (reason : JStr) :
    ∀ p ∈ rs,
      Eff.clearedTimeout p.2.timer ∈ closeRejectEffs rs reason ∧
      Eff.rejected p.1 (JsErr.generic reason) ∈ closeRejectEffs rs reason := by
  induction rs with
  | nil => intro p hp; simp at hp
  | cons q rest ih =>
    intro p hp
    have heq : closeRejectEffs (q :: rest) reason =
        Eff.clearedTimeout q.2.timer :: Eff.rejected q.1 (JsErr.generic reason) ::
          closeRejectEffs rest reason := rfl
    rw [heq]
    rcases List.mem_cons.mp hp with rfl | hmem
    · exact ⟨List.mem_cons_self _ _, List.mem_cons_of_mem _ (List.mem_cons_self _ _)⟩
    · exact ⟨List.mem_cons_of_mem _ (List.mem_cons_of_mem _ (ih p hmem).1),
             List.mem_cons_of_mem _ (List.mem_cons_of_mem _ (ih p hmem).2)⟩

theorem timer_filtered (ats : List Nat) (rs : List (Int × ReqEntry))
    (p : Int × ReqEntry) (hp : p ∈ rs) :
    p.2.timer ∉ ats.filter (fun t => !((rs.map (fun q => q.2.timer)).contains t)) := by
  intro hmem
  have h := List.of_mem_filter hmem
  have hin : p.2.timer ∈ rs.map (fun q => q.2.timer) := List.mem_map_of_mem _ hp
  rw [Bool.not_eq_true'] at h
  have hc2 : (rs.map (fun q => q.2.timer)).contains p.2.timer = true :=
    List.elem_eq_true_of_mem hin
  rw [hc2] at h
  exact Bool.noConfusion h

/-- Claim C7.  For every reachable session with pending requests
outstanding, awaiting `close(reason)` disables future reconnection,
cancels any scheduled reconnect, rejects every pending request with an
error whose message equals the caller-supplied reason after cancelling
that entry's deadline timer (no request timer stays active), empties
the table, and leaves `isConnected()` reporting false once the close
completes (the transport close event lowers the connected flag before
the close promise's continuation runs). -/
theorem c7_close_rejects_all :
    ∀ (st : SessState) (reason : JStr),
      Reachable st →
      st.requests ≠ [] →
      (closeSettled st reason).1.reconnectOpt = false ∧
      (closeSettled st reason).1.reconnectTimerActive = false ∧
      (closeSettled st reason).1.requests = [] ∧
      (closeSettled st reason).1.connected = false ∧
      (∀ p ∈ st.requests,
        Eff.rejected p.1 (JsErr.generic reason) ∈ (closeSettled st reason).2 ∧
        Eff.clearedTimeout p.2.timer ∈ (closeSettled st reason).2 ∧
        p.2.timer ∉ (closeSettled st reason).1.activeTimers) := by
  intro st reason hreach _
  have hinv := reachable_inv hreach
  by_cases hcond : st.wsState = WsState.connecting ∨ st.wsState = WsState.wsOpen
  · rw [closeSettled_eq_pos st reason hcond]
    refine ⟨(onCloseModel_fields _).2.2.2.2.trans rfl,
            (onCloseModel_reconnectTimer_of_noReconnect _ rfl).trans rfl,
            (onCloseModel_fields _).2.2.1.trans rfl,
            (onCloseModel_fields _).1, ?_⟩
    intro p hp
    refine ⟨(closeRejectEffs_mem st.requests reason p hp).2,
            (closeRejectEffs_mem st.requests reason p hp).1, ?_⟩
    rw [(onCloseModel_fields _).2.2.2.1]
    exact timer_filtered st.activeTimers st.requests p hp
  · rw [closeSettled_eq_neg st reason hcond]
    have hws : st.wsState = WsState.closed := by
      cases hx : st.wsState
      · exact absurd (Or.inl hx) hcond
      · exact absurd (Or.inr hx) hcond
      · exact absurd hx hinv.2
      · rfl
    have hc : st.connected = false := by
      cases hcc : st.connected
      · rfl
      · have h2 := hinv.1 hcc
        rw [hws] at h2
        exact WsState.noConfusion h2
    refine ⟨rfl, rfl, rfl, hc, ?_⟩
    intro p hp
    exact ⟨(closeRejectEffs_mem st.requests reason p hp).2,
           (closeRejectEffs_mem st.requests reason p hp).1,
           timer_filtered st.activeTimers st.requests p hp⟩

/-- Claim C7, witness: a session reached by connecting, settling and
issuing two requests (ids `1` and `2`); closing it with the reason
`shutdown` rejects both pending requests with that reason, empties the
table, cancels both deadline timers and reports not connected. -/
theorem c7_close_rejects_all_witness :
    (closeSettled c7s4 ("shutdown".toList)).1.requests = [] ∧
    (closeSettled c7s4 ("shutdown".toList)).1.connected = false ∧
    Eff.rejected 1 (JsErr.generic ("shutdown".toList)) ∈
      (closeSettled c7s4 ("shutdown".toList)).2 ∧
    Eff.rejected 2 (JsErr.generic ("shutdown".toList)) ∈
      (closeSettled c7s4 ("shutdown".toList)).2 ∧
    (0 : Nat) ∉ (closeSettled c7s4 ("shutdown".toList)).1.activeTimers ∧
    (1 : Nat) ∉ (closeSettled c7s4 ("shutdown".toList)).1.activeTimers := by
  have h0 : Reachable (initState true) := Reachable.init true
  have h1 : Reachable c7s1 := Reachable.step h0 (Step.openEvt (initState true) rfl)
  have h2 : Reachable c7s2 := Reachable.step h1 (Step.settle c7s1 [] rfl rfl)
  have h3 : Reachable (createRequestPromise c7s2 1 ("m1".toList)) :=
    Reachable.step h2 (Step.sendReq c7s2 1 ("m1".toList) rfl rfl)
  have h4 : Reachable c7s4 :=
    Reachable.step h3
      (Step.sendReq (createRequestPromise c7s2 1 ("m1".toList)) 2 ("m2".toList) rfl rfl)
  have h := c7_close_rejects_all c7s4 ("shutdown".toList) h4 (by decide)
  have hm1 := h.2.2.2.2 (1, ⟨"m1".toList, 0⟩) (by decide)
  have hm2 := h.2.2.2.2 (2, ⟨"m2".toList, 1⟩) (by decide)
  exact ⟨h.2.2.1, h.2.2.2.1, hm1.1, hm2.1, hm1.2.2, hm2.2.2⟩
